import Mathlib

/-!
Verification of the course-maker consumer pipeline.

The development shallowly embeds the two source files of the repository:

* `courseGenerator/generator.py` — templates, table-of-contents builder,
  per-module generation, course assembly, and the `is_software_course`
  keyword classifier.  Calls to the external text-generation service are
  modelled by an oracle `LLM : GenCall → Except PyErr String`; the dynamic
  typing of Python is modelled where it matters (`is_software_course`
  receives a value that may be a string or a boolean, and calling
  `.lower()` on a boolean raises `AttributeError`).

* `main.py` — message validation, persistence, and the consume/commit
  loop, modelled as functions producing an ordered trace of events
  (orchestrator invocation, persistence, logging, offset commit).
-/

namespace CourseMaker

/-! ## Data model (decoded message payloads) -/

structure SectionData where
  title : String
deriving DecidableEq

structure ModuleData where
  title : String
  sections : Option (List SectionData)
deriving DecidableEq

structure CourseData where
  title : String
  category : Option String
  modules : List ModuleData
deriving DecidableEq

/-- A Python runtime value as far as the pipeline's dynamic typing matters:
the argument handed to `is_software_course` is a string in the annotated
contract but a boolean at the actual call site. -/
inductive PyVal where
  | str (s : String)
  | bool (b : Bool)
deriving DecidableEq

/-- Exceptions the embedded code can raise. -/
inductive PyErr where
  | attributeError
  | genFailure (msg : String)
deriving DecidableEq

instance {ε α : Type} [DecidableEq ε] [DecidableEq α] : DecidableEq (Except ε α)
  | .ok a, .ok b =>
      if h : a = b then isTrue (by rw [h]) else isFalse fun hh => h (by cases hh; rfl)
  | .ok _, .error _ => isFalse fun hh => Except.noConfusion hh
  | .error _, .ok _ => isFalse fun hh => Except.noConfusion hh
  | .error e, .error f =>
      if h : e = f then isTrue (by rw [h]) else isFalse fun hh => h (by cases hh; rfl)

/-! ## Python string primitives

Implemented on the character list underlying `String`, so that concrete
instances evaluate by `decide`/`rfl`. -/

/-- Python `str.lower()` (on the ASCII range the sources use). -/
def pyLower (s : String) : String := String.mk (s.data.map Char.toLower)

/-- Python `str.replace(a, b)` for single-character `a`, `b`. -/
def replaceChar (a b : Char) (s : String) : String :=
  String.mk (s.data.map fun c => if c = a then b else c)

/-- Python `str.strip()`: leading and trailing whitespace removed. -/
def pyStrip (s : String) : String :=
  String.mk (((s.data.dropWhile Char.isWhitespace).reverse.dropWhile Char.isWhitespace).reverse)

/-- Python `sep.join(items)`. -/
def pyJoin (sep : String) : List String → String
  | [] => ""
  | [s] => s
  | s :: rest => s ++ sep ++ pyJoin sep rest

/-- Python `needle in hay` on a list of characters: contiguous substring. -/
def isSubListOf (needle : List Char) : List Char → Bool
  | [] => needle.isEmpty
  | c :: rest => needle.isPrefixOf (c :: rest) || isSubListOf needle rest

/-- Python `needle in hay` on strings. -/
def strContains (needle hay : String) : Bool :=
  isSubListOf needle.data hay.data

/-- Python `.lower()` on a dynamic value: strings lower, booleans have no
`.lower()` attribute and raise `AttributeError`. -/
def pyValLower : PyVal → Except PyErr String
  | .str s => .ok (pyLower s)
  | .bool _ => .error .attributeError

/-! ## generator.py: classifier -/

/-- `software_keywords` of `is_software_course`. -/
def software_keywords : List String :=
  ["software", "programming", "coding", "development", "javascript",
   "python", "java", "c++", "web", "app", "database", "frontend",
   "backend", "fullstack", "data science", "machine learning"]

/-- `is_software_course(category)`: `any(keyword in category.lower() for
keyword in software_keywords)`.  The parameter is a dynamic value because
the one call site passes a boolean. -/
def is_software_course (category : PyVal) : Except PyErr Bool := do
  let lowered ← pyValLower category
  return software_keywords.any fun k => strContains k lowered

/-! ## generator.py: templates -/

/-- `MODULE_TEMPLATE.format(...)`: the triple-quoted template begins and
ends with a newline. -/
def MODULE_TEMPLATE (module_title module_content : String) : String :=
  "\n## " ++ module_title ++ "\n\n" ++ module_content ++ "\n"

/-- `SOFTWARE_MODULE_TEMPLATE.format(...)`. -/
def SOFTWARE_MODULE_TEMPLATE (module_title module_content code_examples : String) : String :=
  "\n## " ++ module_title ++ "\n\n" ++ module_content ++
    "\n\n### Code Examples\n\n" ++ code_examples ++ "\n"

/-- `COURSE_TEMPLATE.format(...)`. -/
def COURSE_TEMPLATE (course_title course_description table_of_contents modules_content : String) : String :=
  "\n# " ++ course_title ++ "\n\n" ++ course_description ++
    "\n\n## Table of Contents\n" ++ table_of_contents ++ "\n\n" ++
    modules_content ++ "\n"

/-! ## generator.py: the text-generation collaborator -/

/-- One call to the text-generation collaborator, identified by which
prompt template the source runs and the variables it passes. -/
inductive GenCall where
  | courseDescription (title : String) (modules : String)
  | moduleBody (title : String) (sections : String)
  | moduleBodyNoCode (title : String) (sections : String)
  | moduleCodeExamples (title : String) (sections : String)
deriving DecidableEq

/-- The collaborator: each call returns text or raises. -/
def LLM := GenCall → Except PyErr String

/-! ## generator.py: generation steps -/

/-- `generate_course_description`: one call with the course title and the
comma-joined module titles; the result is stripped. -/
def generate_course_description (llm : LLM) (c : CourseData) : Except PyErr String := do
  let description ← llm (.courseDescription c.title
    (pyJoin ", " (c.modules.map (·.title))))
  return pyStrip description

/-- Anchor rule of the table of contents:
`title.lower().replace(' ', '-')`. -/
def anchor (title : String) : String :=
  replaceChar ' ' '-' (pyLower title)

/-- One top-level TOC entry: `f"{i}. [{title}](#{anchor})"`. -/
def tocModuleEntry (i : Nat) (m : ModuleData) : String :=
  toString i ++ ". [" ++ m.title ++ "](#" ++ anchor m.title ++ ")"

/-- One nested TOC entry: `f"   {i}.{j}. [{title}](#{anchor})"`. -/
def tocSectionEntry (i j : Nat) (s : SectionData) : String :=
  "   " ++ toString i ++ "." ++ toString j ++ ". [" ++ s.title ++
    "](#" ++ anchor s.title ++ ")"

/-- The inner `enumerate(module['sections'], 1)` loop. -/
def tocSectionLines (i : Nat) : Nat → List SectionData → List String
  | _, [] => []
  | j, s :: ss => tocSectionEntry i j s :: tocSectionLines i (j + 1) ss

/-- The outer `enumerate(modules, 1)` loop, accumulating `toc`. -/
def tocLines : Nat → List ModuleData → List String
  | _, [] => []
  | i, m :: ms =>
      (tocModuleEntry i m ::
        (match m.sections with
         | none => []
         | some ss => tocSectionLines i 1 ss)) ++ tocLines (i + 1) ms

/-- `generate_table_of_contents(modules)`: `"\n".join(toc)`. -/
def generate_table_of_contents (modules : List ModuleData) : String :=
  pyJoin "\n" (tocLines 1 modules)

/-- The `sections` argument passed to the module prompts:
`", ".join(section_titles) if section_titles else "No specific sections"`,
where `section_titles` is empty when the module has no `sections` key. -/
def sectionsArgOf (m : ModuleData) : String :=
  let ts : List String :=
    match m.sections with
    | some ss => ss.map (·.title)
    | none => []
  if ts.isEmpty then "No specific sections" else pyJoin ", " ts

/-- `generate_standard_module`: one body call, stripped, formatted with
`MODULE_TEMPLATE`. -/
def generate_standard_module (llm : LLM) (m : ModuleData) : Except PyErr String := do
  let content ← llm (.moduleBody m.title (sectionsArgOf m))
  return MODULE_TEMPLATE m.title (pyStrip content)

/-- `generate_software_module`: a prose call (code excluded) and a
code-examples call, both stripped, formatted with
`SOFTWARE_MODULE_TEMPLATE`. -/
def generate_software_module (llm : LLM) (m : ModuleData) : Except PyErr String := do
  let content ← llm (.moduleBodyNoCode m.title (sectionsArgOf m))
  let code_examples ← llm (.moduleCodeExamples m.title (sectionsArgOf m))
  return SOFTWARE_MODULE_TEMPLATE m.title (pyStrip content) (pyStrip code_examples)

/-- `generate_module_content(llm, module, is_software)`. -/
def generate_module_content (llm : LLM) (m : ModuleData) (is_software : Bool) :
    Except PyErr String :=
  if is_software then generate_software_module llm m
  else generate_standard_module llm m

/-- The boolean expression the per-module loop of `generate_course_content`
passes to `is_software_course`:
`'software' in course_data.get('category', '').lower() or 'programming' in
course_data.get('category', '').lower()`. -/
def variantArg (c : CourseData) : Bool :=
  strContains "software" (pyLower (c.category.getD "")) ||
    strContains "programming" (pyLower (c.category.getD ""))

/-- The `for module in course_data['modules']` loop body of
`generate_course_content`. -/
def genModulesContent (llm : LLM) (c : CourseData) :
    List ModuleData → Except PyErr (List String)
  | [] => .ok []
  | m :: ms => do
      let is_software ← is_software_course (.bool (variantArg c))
      let module_content ← generate_module_content llm m is_software
      let rest ← genModulesContent llm c ms
      return module_content :: rest

/-- The final assembly of `generate_course_content`:
`COURSE_TEMPLATE.format(..., modules_content="\n\n".join(modules_content))`. -/
def assembleCourse (title description toc : String) (modules_content : List String) : String :=
  COURSE_TEMPLATE title description toc (pyJoin "\n\n" modules_content)

/-- `generate_course_content(course_data)`: description, local TOC, the
per-module loop, then assembly; any exception propagates (the `except`
clause logs and re-raises). -/
def generate_course_content (llm : LLM) (c : CourseData) : Except PyErr String := do
  let course_description ← generate_course_description llm c
  let toc := generate_table_of_contents c.modules
  let modules_content ← genModulesContent llm c c.modules
  return assembleCourse c.title course_description toc modules_content

/-! ## main.py: consumer loop, persistence, events -/

/-- A decoded message payload: a JSON object whose relevant keys may be
absent (`key in course_data` checks model `Option`). -/
structure Payload where
  title : Option String
  category : Option String
  modules : Option (List ModuleData)

/-- The artifact store: whether writing a given path/content succeeds. -/
def Store := String → String → Bool

/-- Observable steps of processing one message, in execution order. -/
inductive Event where
  | orchestratorInvoked
  | persistInvoked (path : String) (content : String)
  | fileWritten (path : String) (content : String)
  | logged (msg : String)
  | committed
deriving DecidableEq

/-- Per-message outcome of the loop body. -/
inductive Outcome where
  | success
  | skipped
  | failed
deriving DecidableEq

/-- Filename sanitization of `save_course_content`:
`title.lower().replace(' ', '_').replace('/', '_').replace('\\', '_')`. -/
def sanitize_filename (title : String) : String :=
  replaceChar '\\' '_' (replaceChar '/' '_' (replaceChar ' ' '_' (pyLower title)))

/-- The path `save_course_content` writes to:
`f"generated_courses/{filename}.md"`. -/
def savePath (title : String) : String :=
  "generated_courses/" ++ sanitize_filename title ++ ".md"

/-- `save_course_content(title, content)`: attempts the write; an I/O
error is caught and logged, so the function itself never raises. -/
def save_course_content (store : Store) (title content : String) : List Event :=
  let filepath := savePath title
  if store filepath content then
    [.persistInvoked filepath content, .fileWritten filepath content,
     .logged "Course content saved"]
  else
    [.persistInvoked filepath content, .logged "Error saving course content"]

/-- The `course_data` dictionary seen by `generate_course_content` once
validation has passed (`get('category', '')` happens inside the
generator; absent keys that validation does not check stay optional). -/
def mkCourse (p : Payload) : CourseData :=
  { title := p.title.getD "", category := p.category, modules := p.modules.getD [] }

/-- `all(key in course_data for key in ['title', 'modules'])`. -/
def validPayload (p : Payload) : Bool :=
  p.title.isSome && p.modules.isSome

/-- `process_message(message)`: validate, generate, persist; every
exception is caught and logged, so the function always returns. -/
def process_message (llm : LLM) (store : Store) (p : Payload) : Outcome × List Event :=
  if validPayload p then
    match generate_course_content llm (mkCourse p) with
    | .ok content =>
        (.success,
          Event.orchestratorInvoked ::
            save_course_content store (p.title.getD "") content ++
            [Event.logged "Successfully processed course"])
    | .error _ =>
        (.failed, [Event.orchestratorInvoked, Event.logged "Error processing message"])
  else
    (.skipped, [Event.logged "Invalid message format"])

/-- One iteration of the `for message in consumer` loop:
`process_message(message)` then `consumer.commit()`. -/
def consumeOne (llm : LLM) (store : Store) (p : Payload) : List Event :=
  (process_message llm store p).2 ++ [Event.committed]

/-- The consumer loop over a finite prefix of the message stream. -/
def mainLoop (llm : LLM) (store : Store) : List Payload → List Event
  | [] => []
  | p :: ps => consumeOne llm store p ++ mainLoop llm store ps

/-! ## Concrete collaborators used by witnesses and counterexamples -/

/-- A text-generation collaborator that always returns the same text. -/
def llmConst : LLM := fun _ => .ok "generated text"

/-- A collaborator whose every call raises a generation failure. -/
def llmFail : LLM := fun _ => .error (.genFailure "service unavailable")

/-- An artifact store whose writes always succeed. -/
def store0 : Store := fun _ _ => true

/-- The spec scenario module `{title:"Basics", sections:[Vars, Loops]}`. -/
def mBasics : ModuleData :=
  { title := "Basics", sections := some [{ title := "Vars" }, { title := "Loops" }] }

/-! ## Theorems -/

theorem is_software_course_str (s : String) :
    is_software_course (.str s) =
      .ok (software_keywords.any fun k => strContains k (pyLower s)) := rfl

/-- C5: `is_software_course` on a string argument is total and
deterministic; it answers `true` (the CodeAnnotated variant) exactly when
some keyword of the fixed set is a substring of the lowercased category —
hence case-insensitively; any category whose lowercasing contains
"python" is CodeAnnotated, "History" is Standard, and "Biosoftware" is
CodeAnnotated. -/
theorem c5_classifier_keyword_substring (s : String) :
    (∃ b, is_software_course (.str s) = .ok b)
    ∧ (is_software_course (.str s) = .ok true ↔
        ∃ k ∈ software_keywords, strContains k (pyLower s) = true)
    ∧ (strContains "python" (pyLower s) = true →
        is_software_course (.str s) = .ok true)
    ∧ is_software_course (.str "History") = .ok false
    ∧ is_software_course (.str "Biosoftware") = .ok true := by
  refine ⟨⟨_, is_software_course_str s⟩, ?_, ?_, by decide, by decide⟩
  · rw [is_software_course_str]
    simp [List.any_eq_true]
  · intro h
    rw [is_software_course_str]
    have : software_keywords.any (fun k => strContains k (pyLower s)) = true := by
      refine List.any_eq_true.mpr ⟨"python", by decide, h⟩
    rw [this]

/-- Witness for C5 at the concrete category "PyThOn 101". -/
theorem c5_classifier_keyword_substring_witness :
    is_software_course (.str "PyThOn 101") = .ok true :=
  (c5_classifier_keyword_substring "PyThOn 101").2.2.1 (by decide)

/-- C2: the per-module loop of `generate_course_content` hands the boolean
`'software' in category.lower() or 'programming' in category.lower()` to
`is_software_course`, whose `.lower()` call on a boolean raises
`AttributeError`; hence on any outline with at least one module the
generation raises before any `CourseArtifact` is assembled, for every
behaviour of the text-generation collaborator. -/
theorem c2_nonempty_course_never_assembled (llm : LLM) (c : CourseData)
    (h : c.modules ≠ []) :
    (∀ b, is_software_course (.bool b) = .error .attributeError)
    ∧ (∃ e, generate_course_content llm c = .error e)
    ∧ ∀ s, generate_course_content llm c ≠ .ok s := by
  have hbool : ∀ b, is_software_course (.bool b) = .error .attributeError :=
    fun _ => rfl
  have herr : ∃ e, generate_course_content llm c = .error e := by
    match hm : c.modules with
    | [] => exact absurd hm h
    | m :: ms =>
      cases hd : generate_course_description llm c with
      | error e => exact ⟨e, by unfold generate_course_content; rw [hd]; rfl⟩
      | ok d =>
        exact ⟨.attributeError, by unfold generate_course_content; rw [hm, hd]; rfl⟩
  refine ⟨hbool, herr, ?_⟩
  intro s hs
  obtain ⟨e, he⟩ := herr
  rw [hs] at he
  exact Except.noConfusion he

/-- Witness for C2 at a one-module history course and a collaborator that
always answers. -/
theorem c2_nonempty_course_never_assembled_witness :
    ∃ e, generate_course_content llmConst
      { title := "World History", category := some "History",
        modules := [{ title := "Ancient Rome", sections := none }] } = .error e :=
  (c2_nonempty_course_never_assembled llmConst
    { title := "World History", category := some "History",
      modules := [{ title := "Ancient Rome", sections := none }] }
    (by decide)).2.1

/-- C6 (code bug): the intent — variant decided once per course by the
full-keyword classifier on the course category — is contradicted by the
code, which evaluates a two-keyword boolean inside the per-module loop
and passes it to `is_software_course` (annotated `category: str`),
raising `AttributeError` on the first module of the history course below
instead of producing the Standard variant. -/
theorem c6_variant_determination_crashes :
    generate_course_content llmConst
      { title := "World History II", category := some "History",
        modules := [{ title := "Ancient Greece", sections := none }] } =
      .error .attributeError := by decide

theorem committed_not_mem_save (store : Store) (t ct : String) :
    Event.committed ∉ save_course_content store t ct := by
  by_cases hs : store (savePath t) ct = true <;>
    simp [save_course_content, hs]

theorem committed_not_mem_process (llm : LLM) (store : Store) (p : Payload) :
    Event.committed ∉ (process_message llm store p).2 := by
  unfold process_message
  by_cases hv : validPayload p = true
  · rw [if_pos hv]
    cases hgen : generate_course_content llm (mkCourse p) with
    | ok content =>
      simp [committed_not_mem_save store (p.title.getD "") content]
    | error e => simp
  · rw [if_neg hv]
    simp

/-- C1: in each loop iteration the offset commit is the unique last event
of the trace: every processing event — the persistence attempt on
Success, or the logging that realizes a Skipped/Failed determination —
strictly precedes it, and no commit happens during processing. -/
theorem c1_commit_only_after_processing (llm : LLM) (store : Store) (p : Payload) :
    consumeOne llm store p = (process_message llm store p).2 ++ [Event.committed]
    ∧ Event.committed ∉ (process_message llm store p).2
    ∧ (consumeOne llm store p).getLast? = some Event.committed
    ∧ ∀ i, (consumeOne llm store p).get? i = some Event.committed →
        i + 1 = (consumeOne llm store p).length := by
  refine ⟨rfl, committed_not_mem_process llm store p, ?_, ?_⟩
  · show ((process_message llm store p).2 ++ [Event.committed]).getLast? = _
    simp
  · intro i hi
    show i + 1 = ((process_message llm store p).2 ++ [Event.committed]).length
    have hi' : ((process_message llm store p).2 ++ [Event.committed]).get? i =
        some Event.committed := hi
    rcases Nat.lt_or_ge i (process_message llm store p).2.length with hlt | hge
    · rw [List.get?_append hlt] at hi'
      exact absurd (List.get?_mem hi') (committed_not_mem_process llm store p)
    · rw [List.get?_append_right hge] at hi'
      have : i - (process_message llm store p).2.length = 0 := by
        cases hk : i - (process_message llm store p).2.length with
        | zero => rfl
        | succ k => rw [hk] at hi'; simp at hi'
      have hieq : i = (process_message llm store p).2.length :=
        Nat.le_antisymm (by omega) hge
      simp [hieq]

/-- C3: if generation raises for a message (any failing generation call
aborts the whole course), then no persistence is attempted and no file is
written, the error is logged, the offset is still committed as the last
event, and the loop proceeds to the next message. -/
theorem c3_generation_failure_no_artifact_still_commits
    (llm : LLM) (store : Store) (p : Payload) (ps : List Payload) (e : PyErr)
    (hv : validPayload p = true)
    (hfail : generate_course_content llm (mkCourse p) = .error e) :
    (process_message llm store p).1 = .failed
    ∧ (∀ path content, Event.persistInvoked path content ∉ consumeOne llm store p)
    ∧ (∀ path content, Event.fileWritten path content ∉ consumeOne llm store p)
    ∧ Event.logged "Error processing message" ∈ consumeOne llm store p
    ∧ (consumeOne llm store p).getLast? = some Event.committed
    ∧ mainLoop llm store (p :: ps) = consumeOne llm store p ++ mainLoop llm store ps := by
  have hpm : process_message llm store p =
      (.failed, [Event.orchestratorInvoked, Event.logged "Error processing message"]) := by
    unfold process_message
    rw [if_pos hv, hfail]
  refine ⟨by rw [hpm], ?_, ?_, ?_, ?_, rfl⟩ <;>
    simp [consumeOne, hpm]

/-- C4: a message missing `title` or `modules` is Skipped: the trace shows
no orchestrator invocation and no persistence, only the validation log
followed by the offset commit. -/
theorem c4_missing_fields_skip_still_commits
    (llm : LLM) (store : Store) (p : Payload)
    (h : p.title = none ∨ p.modules = none) :
    (process_message llm store p).1 = .skipped
    ∧ Event.orchestratorInvoked ∉ consumeOne llm store p
    ∧ (∀ path content, Event.persistInvoked path content ∉ consumeOne llm store p)
    ∧ (∀ path content, Event.fileWritten path content ∉ consumeOne llm store p)
    ∧ consumeOne llm store p = [Event.logged "Invalid message format", Event.committed] := by
  have hv : validPayload p = false := by
    cases h with
    | inl h => simp [validPayload, h]
    | inr h => simp [validPayload, h]
  have hpm : process_message llm store p =
      (.skipped, [Event.logged "Invalid message format"]) := by
    unfold process_message
    rw [if_neg (by simp [hv])]
  refine ⟨by rw [hpm], ?_, ?_, ?_, by simp [consumeOne, hpm]⟩ <;>
    simp [consumeOne, hpm]

/-- The spec scenario payload: `{title:"Intro to Go", category:"programming",
modules:[Basics/Vars,Loops]}`. -/
def pGo : Payload :=
  { title := some "Intro to Go", category := some "programming",
    modules := some [mBasics] }

/-- A payload whose `modules` key is absent. -/
def pNoModules : Payload :=
  { title := some "Some Course", category := none, modules := none }

/-- Witness for C3: the failing collaborator on the scenario payload. -/
theorem c3_generation_failure_witness :
    (process_message llmFail store0 pGo).1 = Outcome.failed :=
  (c3_generation_failure_no_artifact_still_commits llmFail store0 pGo []
    (.genFailure "service unavailable") (by decide) (by decide)).1

/-- Witness for C4: a payload without `modules`. -/
theorem c4_missing_fields_witness :
    consumeOne llmConst store0 pNoModules =
      [Event.logged "Invalid message format", Event.committed] :=
  (c4_missing_fields_skip_still_commits llmConst store0 pNoModules
    (Or.inr rfl)).2.2.2.2

/-- Modelled from the spec's words for C9: the persisted name is the
course title "lowercased, spaces→underscores, path separators stripped"
— i.e. the separators `/` and `\` removed. -/
def sanitize_spec (title : String) : String :=
  String.mk (((pyLower title).data.map fun c => if c = ' ' then '_' else c).filter
    fun c => !(c == '/' || c == '\\'))

/-- Counterexample to C9 as stated: for the title `"Intro/Advanced
Topics"` the code persists to `generated_courses/intro_advanced_topics.md`
— the path separator is replaced by an underscore, not stripped — which
differs from the name the claim's derivation produces. -/
theorem c9_counterexample_separator_replaced_not_stripped :
    (save_course_content store0 "Intro/Advanced Topics" "body").head? =
      some (Event.persistInvoked "generated_courses/intro_advanced_topics.md" "body")
    ∧ "generated_courses/intro_advanced_topics.md" ≠
        "generated_courses/" ++ sanitize_spec "Intro/Advanced Topics" ++ ".md" := by
  constructor
  · rfl
  · decide

/-- C9 (amended): for every successfully generated course the persistence
attempt targets exactly `generated_courses/{sanitized}.md`, where
`sanitized` is the title lowercased with spaces and both path separators
replaced by underscores, and that attempt occurs strictly before the
offset commit. -/
theorem c9_amended_persist_path_before_commit
    (llm : LLM) (store : Store) (p : Payload) (content : String)
    (hv : validPayload p = true)
    (hok : generate_course_content llm (mkCourse p) = .ok content) :
    ∃ pre post,
      consumeOne llm store p =
        pre ++ Event.persistInvoked
          ("generated_courses/" ++
            replaceChar '\\' '_' (replaceChar '/' '_' (replaceChar ' ' '_'
              (pyLower (p.title.getD "")))) ++ ".md") content :: post ++ [Event.committed]
      ∧ Event.committed ∉ pre ∧ Event.committed ∉ post := by
  have hpm : process_message llm store p =
      (.success, Event.orchestratorInvoked ::
        save_course_content store (p.title.getD "") content ++
        [Event.logged "Successfully processed course"]) := by
    unfold process_message
    rw [if_pos hv, hok]
  by_cases hs : store (savePath (p.title.getD "")) content = true
  · refine ⟨[Event.orchestratorInvoked],
      [Event.fileWritten (savePath (p.title.getD "")) content,
       Event.logged "Course content saved",
       Event.logged "Successfully processed course"], ?_, by simp, by simp⟩
    simp only [savePath, sanitize_filename] at hs
    simp [consumeOne, hpm, save_course_content, hs, savePath, sanitize_filename]
  · refine ⟨[Event.orchestratorInvoked],
      [Event.logged "Error saving course content",
       Event.logged "Successfully processed course"], ?_, by simp, by simp⟩
    simp only [savePath, sanitize_filename] at hs
    simp [consumeOne, hpm, save_course_content, hs, savePath, sanitize_filename]

/-- A valid payload with an empty module list: the only shape of input on
which generation completes (see C2). -/
def pEmptyModules : Payload :=
  { title := some "A B", category := none, modules := some [] }

/-- Witness for the amended C9 at a concrete successful course. -/
theorem c9_amended_persist_path_witness :
    ∃ pre post,
      consumeOne llmConst store0 pEmptyModules =
        pre ++ Event.persistInvoked
          ("generated_courses/" ++
            replaceChar '\\' '_' (replaceChar '/' '_' (replaceChar ' ' '_'
              (pyLower (pEmptyModules.title.getD "")))) ++ ".md")
          "\n# A B\n\ngenerated text\n\n## Table of Contents\n\n\n\n" ::
          post ++ [Event.committed]
      ∧ Event.committed ∉ pre ∧ Event.committed ∉ post :=
  c9_amended_persist_path_before_commit llmConst store0 pEmptyModules
    "\n# A B\n\ngenerated text\n\n## Table of Contents\n\n\n\n"
    (by decide) (by decide)

/-- A collaborator answering every call with the fixed body text. -/
def llmBody : LLM := fun _ => .ok "Body text"

/-- Counterexample to C8 as stated: the Standard rendering of module
"Basics" with body "Body text" is `"\n## Basics\n\nBody text\n"` — the
triple-quoted templates contribute a leading and a trailing newline — not
the claimed `"## Basics\n\nBody text"`. -/
theorem c8_counterexample_template_newlines :
    generate_standard_module llmBody { title := "Basics", sections := none } =
      .ok "\n## Basics\n\nBody text\n"
    ∧ generate_standard_module llmBody { title := "Basics", sections := none } ≠
      .ok "## Basics\n\nBody text" := by
  exact ⟨rfl, by decide⟩

/-- C8 (amended): the Standard module rendering equals
`"\n## {title}\n\n{body}\n"`, the CodeAnnotated rendering equals
`"\n## {title}\n\n{body}\n\n### Code Examples\n\n{codeExamples}\n"`, the
course rendering equals `"\n# {title}\n\n{description}\n\n## Table of
Contents\n{toc}\n\n"` followed by the module renderings separated by a
blank line and a final newline; description, body and code examples are
stripped of leading/trailing whitespace before insertion. -/
theorem c8_amended_rendering_with_trim :
    (∀ (llm : LLM) (m : ModuleData) (body : String),
      llm (.moduleBody m.title (sectionsArgOf m)) = .ok body →
      generate_standard_module llm m =
        .ok ("\n## " ++ m.title ++ "\n\n" ++ pyStrip body ++ "\n"))
    ∧ (∀ (llm : LLM) (m : ModuleData) (body code : String),
      llm (.moduleBodyNoCode m.title (sectionsArgOf m)) = .ok body →
      llm (.moduleCodeExamples m.title (sectionsArgOf m)) = .ok code →
      generate_software_module llm m =
        .ok ("\n## " ++ m.title ++ "\n\n" ++ pyStrip body ++
          "\n\n### Code Examples\n\n" ++ pyStrip code ++ "\n"))
    ∧ (∀ (llm : LLM) (c : CourseData) (d : String),
      llm (.courseDescription c.title (pyJoin ", " (c.modules.map (·.title)))) = .ok d →
      generate_course_description llm c = .ok (pyStrip d))
    ∧ ∀ t d toc mods, assembleCourse t d toc mods =
        "\n# " ++ t ++ "\n\n" ++ d ++ "\n\n## Table of Contents\n" ++ toc ++
          "\n\n" ++ pyJoin "\n\n" mods ++ "\n" := by
  refine ⟨?_, ?_, ?_, fun t d toc mods => rfl⟩
  · intro llm m body hb
    unfold generate_standard_module
    rw [hb]; rfl
  · intro llm m body code hb hc
    unfold generate_software_module
    rw [hb]
    show (Except.ok (pyStrip body) >>= fun content =>
      llm (.moduleCodeExamples m.title (sectionsArgOf m)) >>= fun ce =>
        pure (SOFTWARE_MODULE_TEMPLATE m.title content (pyStrip ce))) = _
    rw [hc]; rfl
  · intro llm c d hd
    unfold generate_course_description
    rw [hd]; rfl

/-- Witness for the amended C8 at a concrete module and body. -/
theorem c8_amended_rendering_witness :
    generate_standard_module llmBody { title := "Basics", sections := none } =
      .ok ("\n## " ++ "Basics" ++ "\n\n" ++ pyStrip "Body text" ++ "\n") :=
  c8_amended_rendering_with_trim.1 llmBody { title := "Basics", sections := none }
    "Body text" rfl

/-! ## Claim-level table-of-contents description (C7) -/

/-- Pair each element with its index, counting from `k`. -/
def numberFrom {α : Type} (k : Nat) : List α → List (Nat × α)
  | [] => []
  | a :: rest => (k, a) :: numberFrom (k + 1) rest

/-- The claim's description of one module's TOC block: the top-level line
`i. [title](#anchor)` followed directly beneath by one indented line
`   i.j. [title](#anchor)` per section, `j` counted from 1. -/
def tocSpecBlock (p : Nat × ModuleData) : List String :=
  (toString p.1 ++ ". [" ++ p.2.title ++ "](#" ++ anchor p.2.title ++ ")") ::
    ((numberFrom 1 (p.2.sections.getD [])).map fun q =>
      "   " ++ toString p.1 ++ "." ++ toString q.1 ++ ". [" ++ q.2.title ++
        "](#" ++ anchor q.2.title ++ ")")

/-- The claim's description of the whole TOC line list: modules numbered
1..N in outline order, one block each. -/
def tocSpecLines (modules : List ModuleData) : List String :=
  ((numberFrom 1 modules).map tocSpecBlock).flatten

theorem tocSectionLines_eq_numbered (i : Nat) (ss : List SectionData) :
    ∀ j, tocSectionLines i j ss =
      (numberFrom j ss).map fun q => tocSectionEntry i q.1 q.2 := by
  induction ss with
  | nil => intro j; rfl
  | cons s rest ih =>
      intro j
      simp only [tocSectionLines, numberFrom, List.map_cons, ih (j + 1)]

theorem tocLines_eq_numbered (ms : List ModuleData) :
    ∀ k, tocLines k ms = ((numberFrom k ms).map tocSpecBlock).flatten := by
  induction ms with
  | nil => intro k; rfl
  | cons m rest ih =>
      intro k
      have hblock : (tocModuleEntry k m ::
          (match m.sections with
           | none => []
           | some ss => tocSectionLines k 1 ss)) = tocSpecBlock (k, m) := by
        cases hs : m.sections with
        | none => simp [tocSpecBlock, hs, numberFrom, tocModuleEntry]
        | some ss =>
            simp [tocSpecBlock, hs, tocSectionLines_eq_numbered k ss 1,
              tocModuleEntry, tocSectionEntry]
      calc tocLines k (m :: rest)
          = (tocModuleEntry k m ::
              (match m.sections with
               | none => []
               | some ss => tocSectionLines k 1 ss)) ++ tocLines (k + 1) rest := rfl
        _ = tocSpecBlock (k, m) ++ ((numberFrom (k + 1) rest).map tocSpecBlock).flatten := by
              rw [hblock, ih (k + 1)]
        _ = ((numberFrom k (m :: rest)).map tocSpecBlock).flatten := rfl

/-- C7: the rendered table of contents is the newline-join of the
claim-level line list: per module `i` (numbered 1..N in outline order)
one line `i. [title](#anchor)` — anchor being the title lowercased with
spaces replaced by hyphens — followed directly beneath by one indented
line `   i.j. [title](#anchor)` per section, `j` counted from 1; on the
spec's scenario outline it yields the exact scenario string. -/
theorem c7_toc_lines_numbered_in_order (modules : List ModuleData) :
    generate_table_of_contents modules = pyJoin "\n" (tocSpecLines modules)
    ∧ tocLines 1 modules = tocSpecLines modules
    ∧ generate_table_of_contents [mBasics] =
        "1. [Basics](#basics)\n   1.1. [Vars](#vars)\n   1.2. [Loops](#loops)" := by
  refine ⟨?_, tocLines_eq_numbered modules 1, by decide⟩
  unfold generate_table_of_contents tocSpecLines
  rw [tocLines_eq_numbered modules 1]

/-! ## Markdown heading re-parsing (C10) -/

/-- Split a character sequence at newlines (the lines of a document). -/
def splitNl : List Char → List (List Char)
  | [] => [[]]
  | c :: rest =>
      if c = '\n' then [] :: splitNl rest
      else (splitNl rest).modifyHead fun l => c :: l

theorem splitNl_ne_nil (l : List Char) : splitNl l ≠ [] := by
  induction l with
  | nil => simp [splitNl]
  | cons c rest ih =>
      by_cases hc : c = '\n'
      · simp [splitNl, hc]
      · simp only [splitNl, if_neg hc]
        cases h : splitNl rest with
        | nil => exact absurd h ih
        | cons a as => simp [List.modifyHead]

theorem splitNl_cons_newline (rest : List Char) :
    splitNl ('\n' :: rest) = [] :: splitNl rest := by
  simp [splitNl]

theorem splitNl_append_newline (x rest : List Char) :
    splitNl (x ++ '\n' :: rest) = splitNl x ++ splitNl rest := by
  induction x with
  | nil => simp [splitNl]
  | cons c x' ih =>
      by_cases hc : c = '\n'
      · subst hc
        simp [splitNl, ih]
      · cases h : splitNl x' with
        | nil => exact absurd h (splitNl_ne_nil x')
        | cons a as =>
            simp [splitNl, if_neg hc, ih, h, List.modifyHead]

theorem splitNl_of_no_newline (l : List Char) (h : '\n' ∉ l) : splitNl l = [l] := by
  induction l with
  | nil => rfl
  | cons c rest ih =>
      have hc : c ≠ '\n' := fun hh => h (hh ▸ List.mem_cons_self c rest)
      have hrest : '\n' ∉ rest := fun hh => h (List.mem_cons_of_mem c hh)
      simp [splitNl, hc, ih hrest, List.modifyHead]

/-- A markdown level-2 heading line: starts with `## `. -/
def isH2Line (l : List Char) : Bool := ['#', '#', ' '].isPrefixOf l

/-- Re-parse the level-2 markdown headings of a document, in order,
dropping the `## ` marker. -/
def h2Headings (doc : String) : List String :=
  ((splitNl doc.data).filter isH2Line).map fun l => String.mk (l.drop 3)

theorem isH2Line_hdr (x : List Char) : isH2Line (['#', '#', ' '] ++ x) = true := by
  simp [isH2Line, List.isPrefixOf]

theorem isH2Line_h1 (x : List Char) : isH2Line ('#' :: ' ' :: x) = false := by
  simp [isH2Line, List.isPrefixOf]

theorem isH2Line_h3 (x : List Char) : isH2Line ('#' :: '#' :: '#' :: x) = false := by
  simp [isH2Line, List.isPrefixOf]

theorem strData_append (s t : String) : (s ++ t).data = s.data ++ t.data := by
  cases s; cases t; rfl

theorem strMk_data (s : String) : String.mk s.data = s := by
  cases s; rfl

theorem isH2Line_cons_hdr (x : List Char) : isH2Line ('#' :: '#' :: ' ' :: x) = true := by
  simp [isH2Line, List.isPrefixOf]

theorem dataTpl1 : ("\n## " : String).data = ['\n', '#', '#', ' '] := rfl

theorem dataTpl2 : ("\n\n" : String).data = ['\n', '\n'] := rfl

theorem dataTpl3 : ("\n" : String).data = ['\n'] := rfl

theorem dataTpl4 : ("\n\n### Code Examples\n\n" : String).data =
    '\n' :: '\n' :: ("### Code Examples".data ++ ['\n', '\n']) := rfl

theorem dataTpl5 : ("\n# " : String).data = ['\n', '#', ' '] := rfl

theorem dataTpl6 : ("\n\n## Table of Contents\n" : String).data =
    '\n' :: '\n' :: ("## Table of Contents".data ++ ['\n']) := rfl

/-- The spec's `ModuleArtifact`: the optional field is present iff the
variant is CodeAnnotated. -/
structure ModuleArtifact where
  title : String
  body : String
  codeExamples : Option String

/-- A module artifact rendered by the source templates: Standard through
`MODULE_TEMPLATE`, CodeAnnotated through `SOFTWARE_MODULE_TEMPLATE`. -/
def renderModuleArtifact (a : ModuleArtifact) : String :=
  match a.codeExamples with
  | none => MODULE_TEMPLATE a.title a.body
  | some ce => SOFTWARE_MODULE_TEMPLATE a.title a.body ce

/-- Free text (body/description/code examples) that contains no line
starting with `## ` — the claim's "independent of the generated prose"
precondition. -/
def noH2 (s : String) : Prop := ∀ l ∈ splitNl s.data, isH2Line l = false

instance (s : String) : Decidable (noH2 s) :=
  inferInstanceAs (Decidable (∀ l ∈ splitNl s.data, isH2Line l = false))

theorem filter_splitNl_noH2 {s : String} (h : noH2 s) :
    (splitNl s.data).filter isH2Line = [] := by
  refine List.filter_eq_nil.mpr fun a ha => ?_
  simp [h a ha]

theorem isH2Line_nil : isH2Line [] = false := rfl

theorem no_newline_hdr {t : List Char} (ht : '\n' ∉ t) :
    '\n' ∉ ['#', '#', ' '] ++ t := by
  intro hmem
  rcases List.mem_append.mp hmem with h | h
  · simp at h
  · exact ht h

theorem splitNl_module_template (t b : String) (ht : '\n' ∉ t.data) :
    splitNl (MODULE_TEMPLATE t b).data =
      [] :: (['#', '#', ' '] ++ t.data) :: [] :: (splitNl b.data ++ [[]]) := by
  have hdata : (MODULE_TEMPLATE t b).data =
      '\n' :: ((['#', '#', ' '] ++ t.data) ++ '\n' :: ('\n' :: (b.data ++ '\n' :: []))) := by
    simp [ MODULE_TEMPLATE, strData_append, dataTpl1, dataTpl2, dataTpl3]
  rw [hdata, splitNl_cons_newline, splitNl_append_newline,
    splitNl_of_no_newline _ (no_newline_hdr ht), splitNl_cons_newline,
    splitNl_append_newline]
  rfl

theorem splitNl_software_template (t b ce : String) (ht : '\n' ∉ t.data) :
    splitNl (SOFTWARE_MODULE_TEMPLATE t b ce).data =
      [] :: (['#', '#', ' '] ++ t.data) :: [] ::
        (splitNl b.data ++ [] :: ("### Code Examples".data) :: [] ::
          (splitNl ce.data ++ [[]])) := by
  have hdata : (SOFTWARE_MODULE_TEMPLATE t b ce).data =
      '\n' :: ((['#', '#', ' '] ++ t.data) ++ '\n' :: ('\n' ::
        (b.data ++ '\n' :: ('\n' :: ("### Code Examples".data ++ '\n' ::
          ('\n' :: (ce.data ++ '\n' :: []))))))) := by
    simp [SOFTWARE_MODULE_TEMPLATE, strData_append, dataTpl1, dataTpl2, dataTpl3, dataTpl4]
  rw [hdata, splitNl_cons_newline, splitNl_append_newline,
    splitNl_of_no_newline _ (no_newline_hdr ht), splitNl_cons_newline,
    splitNl_append_newline, splitNl_cons_newline,
    splitNl_append_newline, splitNl_of_no_newline ("### Code Examples".data) (by decide),
    splitNl_cons_newline, splitNl_append_newline]
  rfl

theorem renderModule_filter_h2 (a : ModuleArtifact)
    (ht : '\n' ∉ a.title.data) (hb : noH2 a.body)
    (hce : ∀ ce, a.codeExamples = some ce → noH2 ce) :
    (splitNl (renderModuleArtifact a).data).filter isH2Line =
      [['#', '#', ' '] ++ a.title.data] := by
  cases hx : a.codeExamples with
  | none =>
      rw [renderModuleArtifact, hx, splitNl_module_template _ _ ht]
      simp [List.filter_cons, List.filter_append, isH2Line_nil, isH2Line_hdr,
        isH2Line_cons_hdr, filter_splitNl_noH2 hb]
  | some ce =>
      have hce' : noH2 ce := hce ce hx
      have hceHdr : isH2Line ("### Code Examples".data) = false := by decide
      rw [renderModuleArtifact, hx, splitNl_software_template _ _ _ ht]
      simp [List.filter_cons, List.filter_append, isH2Line_nil, isH2Line_hdr,
        isH2Line_cons_hdr, filter_splitNl_noH2 hb, filter_splitNl_noH2 hce', hceHdr]

theorem modsJoin_filter_h2 (arts : List ModuleArtifact)
    (h : ∀ a ∈ arts, '\n' ∉ a.title.data ∧ noH2 a.body ∧
      ∀ ce, a.codeExamples = some ce → noH2 ce) :
    (splitNl (pyJoin "\n\n" (arts.map renderModuleArtifact)).data).filter isH2Line =
      arts.map fun a => ['#', '#', ' '] ++ a.title.data := by
  induction arts with
  | nil => rfl
  | cons a rest ih =>
      obtain ⟨ht, hb, hce⟩ := h a (List.mem_cons_self a rest)
      have hrest : ∀ x ∈ rest, '\n' ∉ x.title.data ∧ noH2 x.body ∧
          ∀ ce, x.codeExamples = some ce → noH2 ce :=
        fun x hx => h x (List.mem_cons_of_mem a hx)
      cases rest with
      | nil =>
          show (splitNl (renderModuleArtifact a).data).filter isH2Line = _
          rw [renderModule_filter_h2 a ht hb hce]
          rfl
      | cons r rs =>
          have hjoin : pyJoin "\n\n" ((a :: r :: rs).map renderModuleArtifact) =
              renderModuleArtifact a ++ "\n\n" ++
                pyJoin "\n\n" ((r :: rs).map renderModuleArtifact) := rfl
          have hdata : (renderModuleArtifact a ++ "\n\n" ++
              pyJoin "\n\n" ((r :: rs).map renderModuleArtifact)).data =
              (renderModuleArtifact a).data ++ '\n' ::
                ('\n' :: (pyJoin "\n\n" ((r :: rs).map renderModuleArtifact)).data) := by
            simp [strData_append]
          rw [hjoin, hdata, splitNl_append_newline, splitNl_cons_newline,
            List.filter_append, renderModule_filter_h2 a ht hb hce]
          simp only [List.filter_cons, isH2Line_nil, ih hrest]
          simp

/-- C10: re-parsing the level-2 markdown headings of a composed course
document recovers, after the fixed `Table of Contents` heading, exactly
the module titles in their original order — independent of the inserted
prose, provided the free text (description, bodies, code examples, TOC)
contains no line of its own starting with `## ` and titles contain no
newline. -/
theorem c10_headings_recover_module_titles
    (title desc toc : String) (arts : List ModuleArtifact)
    (htitle : '\n' ∉ title.data)
    (hdesc : noH2 desc) (htoc : noH2 toc)
    (harts : ∀ a ∈ arts, '\n' ∉ a.title.data ∧ noH2 a.body ∧
      ∀ ce, a.codeExamples = some ce → noH2 ce) :
    h2Headings (assembleCourse title desc toc (arts.map renderModuleArtifact)) =
      "Table of Contents" :: arts.map (·.title) := by
  have hno1 : '\n' ∉ ['#', ' '] ++ title.data := by
    intro hmem
    rcases List.mem_append.mp hmem with h | h
    · simp at h
    · exact htitle h
  have hdata : (assembleCourse title desc toc (arts.map renderModuleArtifact)).data =
      '\n' :: ((['#', ' '] ++ title.data) ++ '\n' :: ('\n' ::
        (desc.data ++ '\n' :: ('\n' :: ("## Table of Contents".data ++ '\n' ::
          (toc.data ++ '\n' :: ('\n' ::
            ((pyJoin "\n\n" (arts.map renderModuleArtifact)).data ++ '\n' :: [])))))))) := by
    simp [assembleCourse, COURSE_TEMPLATE, strData_append, dataTpl2, dataTpl3, dataTpl5,
      dataTpl6]
  unfold h2Headings
  rw [hdata, splitNl_cons_newline, splitNl_append_newline,
    splitNl_of_no_newline _ hno1, splitNl_cons_newline,
    splitNl_append_newline, splitNl_cons_newline, splitNl_append_newline,
    splitNl_of_no_newline ("## Table of Contents".data) (by decide),
    splitNl_append_newline, splitNl_cons_newline, splitNl_append_newline]
  have hkeep : isH2Line ("## Table of Contents".data) = true := by decide
  have h1 : isH2Line (['#', ' '] ++ title.data) = false := isH2Line_h1 title.data
  rw [List.filter_cons, List.filter_append]
  simp only [List.filter_cons, List.filter_append, isH2Line_nil, h1, hkeep,
    filter_splitNl_noH2 hdesc, filter_splitNl_noH2 htoc,
    modsJoin_filter_h2 arts harts, Bool.false_eq_true, if_false, if_true]
  simp [splitNl, strMk_data, List.filter_cons, isH2Line_nil, Function.comp]

/-- The concrete CodeAnnotated artifact used by the C10 witness. -/
def aBasics : ModuleArtifact :=
  { title := "Basics", body := "Variables and loops.",
    codeExamples := some "example code" }

/-- Witness for C10 on a concrete one-module CodeAnnotated course. -/
theorem c10_headings_recover_witness :
    h2Headings (assembleCourse "Intro to Go" "A practical course."
      (generate_table_of_contents [mBasics])
      ([aBasics].map renderModuleArtifact)) =
      "Table of Contents" :: [aBasics].map (·.title) :=
  c10_headings_recover_module_titles "Intro to Go" "A practical course."
    (generate_table_of_contents [mBasics]) [aBasics]
    (by decide) (by decide) (by decide)
    (by
      intro a ha
      have hx : a = aBasics := List.mem_singleton.mp ha
      subst hx
      refine ⟨by decide, by decide, ?_⟩
      intro ce hce
      have hc : some "example code" = some ce := hce
      injection hc with h
      subst h
      decide)

end CourseMaker
